import Mathlib

/-!
Shallow embedding of the cftp session/tunnel lifecycle manager
(Electron main process: `SshSession`, `Tunnel`, relay wiring).

The transport library (ssh2 `Client`, `SFTPWrapper`), the event loop and
the filesystem are external collaborators; their outcomes are supplied as
oracle parameters, and the handles they return are modelled as tags.
-/

namespace Cftp

/-! ## Data model (from `ConnectParams`, `TunnelParams`, class fields) -/

/-- `ConnectParams` from the main-process source. Optional string fields are
`Option String`; JavaScript truthiness of a string is "present and non-empty". -/
structure ConnectParams where
  host : String
  port : Nat
  username : String
  password : Option String := none
  privateKeyPath : Option String := none
  privateKeyPassphrase : Option String := none
  useAgent : Bool := false
  agentSockPath : Option String := none
deriving Repr, DecidableEq

structure TunnelParams where
  localPort : Nat
  remoteHost : String
  remotePort : Nat
deriving Repr, DecidableEq

/-- JavaScript truthiness of an optional string value
(`undefined` and the empty string are falsy). -/
def truthy : Option String → Bool
  | none => false
  | some s => s ≠ ""

/-- JavaScript `a || b` on optional strings: `b` when `a` is absent or empty. -/
def jsOr (a b : Option String) : Option String :=
  match a with
  | none => b
  | some s => if s = "" then b else some s

/-- Model of JavaScript `String.prototype.trim`: strip whitespace from both
ends. -/
def jsTrim (s : String) : String :=
  ⟨((s.data.dropWhile Char.isWhitespace).reverse.dropWhile Char.isWhitespace).reverse⟩

/-- Process environment and platform, read by `connect` for agent resolution. -/
structure Env where
  sshAuthSock : Option String := none
  isWin32 : Bool := false
deriving Repr, DecidableEq

/-- The default Windows agent pipe from the source
(`'\\\\.\\pipe\\openssh-ssh-agent'`). -/
def winAgentPipe : String := "\\\\.\\pipe\\openssh-ssh-agent"

/-- Agent socket resolution:
`(params.agentSockPath?.trim() || SSH_AUTH_SOCK || defaultWinPipe)?.trim()`,
then the truthiness check `if (!agent) throw`. Returns `none` when no truthy
agent value results. -/
def resolveAgent (p : ConnectParams) (env : Env) : Option String :=
  let first := jsOr (p.agentSockPath.map jsTrim)
    (jsOr env.sshAuthSock (if env.isWin32 then some winAgentPipe else none))
  match first with
  | none => none
  | some s => if jsTrim s = "" then none else some (jsTrim s)

/-- Which authentication field ends up in the `ConnectConfig`. -/
inductive AuthChoice where
  | agent (sock : String)
  | privateKey (path : String) (passphrase : Option String)
  | password (pw : String)
deriving Repr, DecidableEq

/-- Errors thrown by `SshSession.connect`, tagged by throw site. -/
inductive ConnErr where
  /-- `'SSH agent requested, but no agent socket/pipe found...'` -/
  | configAgent
  /-- `'Provide either password, private key, or enable SSH agent.'` -/
  | configNoMethod
  /-- `fs.readFileSync(privateKeyPath)` threw. -/
  | keyReadError
  /-- the `ready`/`error` handshake promise rejected. -/
  | networkError
  /-- `client.sftp` callback reported an error or a missing handle. -/
  | sftpError
deriving Repr, DecidableEq

/-- The two configuration failures happen before any transport activity. -/
def ConnErr.isConfigError : ConnErr → Bool
  | .configAgent => true
  | .configNoMethod => true
  | _ => false

/-- The authentication branch cascade of `connect`:
`if (params.useAgent) ... else if (params.privateKeyPath) ...
else if (params.password) ... else throw`. -/
def resolveAuth (p : ConnectParams) (env : Env) : Except ConnErr AuthChoice :=
  if p.useAgent then
    match resolveAgent p env with
    | none => .error .configAgent
    | some a => .ok (.agent a)
  else if truthy p.privateKeyPath then
    .ok (.privateKey (p.privateKeyPath.getD "")
      (p.privateKeyPassphrase.filter (fun s => s ≠ "")))
  else if truthy p.password then
    .ok (.password (p.password.getD ""))
  else
    .error .configNoMethod

/-- `Tunnel` instance fields: `server` (listener handle) and `params`.
The `client` back-reference is held by the enclosing session model. -/
structure TunnelState where
  server : Option Nat := none
  params : Option TunnelParams := none
deriving Repr, DecidableEq

/-- `Tunnel.isRunning()` is `!!this.server`. -/
def tunnelIsRunning (t : TunnelState) : Bool := t.server.isSome

/-- `SshSession` instance fields: `client`, `sftp`, `tunnel`.
Handles are modelled as numeric tags. -/
structure SessionState where
  client : Option Nat := none
  sftp : Option Nat := none
  tunnel : Option TunnelState := none
deriving Repr, DecidableEq

/-- The state of a freshly constructed (or fully torn down) session. -/
def disconnectedState : SessionState := { client := none, sftp := none, tunnel := none }

/-- `SshSession.isConnected()` is `!!this.client`. -/
def isConnected (st : SessionState) : Bool := st.client.isSome

/-- Whether each best-effort teardown step throws internally
(`tunnel.stop()`, `sftp.end()`, `client.end()`); every such throw is caught
and ignored by `disconnect`. -/
structure TeardownOracle where
  tunnelStopFails : Bool := false
  sftpEndFails : Bool := false
  clientEndFails : Bool := false
deriving Repr, DecidableEq

/-- `SshSession.disconnect()`: stop tunnel (throw swallowed), clear it;
end sftp (throw swallowed), clear it; end client (throw swallowed), clear it.
Total function: the method never throws to its caller. -/
def sessionDisconnect (st : SessionState) (_o : TeardownOracle) : SessionState :=
  let st1 : SessionState := { st with tunnel := none }
  let st2 : SessionState := { st1 with sftp := none }
  { st2 with client := none }

/-- Outcomes of the external transport / filesystem calls made by `connect`,
and the handles they produce on success. -/
structure TransportOracle where
  keyReadOk : Bool := true
  handshakeOk : Bool := true
  sftpOk : Bool := true
  clientHandle : Nat := 0
  sftpHandle : Nat := 0
deriving Repr, DecidableEq

/-- Network round trips performed by `connect`, in order. -/
inductive NetEvent where
  | tcpHandshake
  | sftpOpen
deriving Repr, DecidableEq

/-- What a `connect` call produced: the session fields afterwards, the thrown
error if any, the authentication method placed in the config, and the network
round trips that were started. -/
structure ConnectResult where
  state : SessionState
  error : Option ConnErr
  auth : Option AuthChoice
  events : List NetEvent
deriving Repr, DecidableEq

/-- Whether building the config throws while reading the key file
(`fs.readFileSync(params.privateKeyPath)`), which only happens on the
private-key branch. -/
def keyReadFails (a : AuthChoice) (o : TransportOracle) : Bool :=
  match a with
  | .privateKey _ _ => !o.keyReadOk
  | _ => false

/-- `SshSession.connect(params)`: first `await this.disconnect()`, then build
the config (auth cascade; the private-key branch synchronously reads the key
file), then `this.client = new Client()` followed by the handshake await, then
the sftp open, then `this.tunnel = new Tunnel(client)`. Failures after the
client assignment propagate with `this.client` still set. -/
def sessionConnect (st : SessionState) (p : ConnectParams) (env : Env)
    (o : TransportOracle) : ConnectResult :=
  let st0 := sessionDisconnect st {}
  match resolveAuth p env with
  | .error e => { state := st0, error := some e, auth := none, events := [] }
  | .ok auth =>
    if keyReadFails auth o then
      { state := st0, error := some .keyReadError, auth := some auth, events := [] }
    else
      let st1 : SessionState := { st0 with client := some o.clientHandle }
      if !o.handshakeOk then
        { state := st1, error := some .networkError, auth := some auth,
          events := [.tcpHandshake] }
      else if !o.sftpOk then
        { state := st1, error := some .sftpError, auth := some auth,
          events := [.tcpHandshake, .sftpOpen] }
      else
        { state := { st1 with sftp := some o.sftpHandle, tunnel := some {} },
          error := none, auth := some auth,
          events := [.tcpHandshake, .sftpOpen] }

/-! ## Tunnel start/stop (from `Tunnel.start`, `Tunnel.stop`) -/

/-- Errors surfaced by `Tunnel.start` and `SshSession.startTunnel`. -/
inductive TunErr where
  | notConnected
  | alreadyRunning
  | bindError
deriving Repr, DecidableEq

/-- One `server.listen(port, host)` attempt. -/
structure BindAction where
  host : String
  port : Nat
deriving Repr, DecidableEq

/-- What a `Tunnel.start` call produced. -/
structure TunnelStartResult where
  state : TunnelState
  error : Option TunErr
  binds : List BindAction
deriving Repr, DecidableEq

/-- `Tunnel.start(params)`: throw `AlreadyRunning` when `this.server` is set;
otherwise store `this.params`, create a server and await
`server.listen(params.localPort, '127.0.0.1')`; on listen success store the
server handle, on listen error propagate with `this.server` still unset. -/
def tunnelStart (t : TunnelState) (p : TunnelParams) (bindOk : Bool)
    (serverHandle : Nat) : TunnelStartResult :=
  if t.server.isSome then
    { state := t, error := some .alreadyRunning, binds := [] }
  else
    let t1 : TunnelState := { t with params := some p }
    let bind : BindAction := { host := "127.0.0.1", port := p.localPort }
    if bindOk then
      { state := { t1 with server := some serverHandle }, error := none,
        binds := [bind] }
    else
      { state := t1, error := some .bindError, binds := [bind] }

/-- `Tunnel.stop()`: clear `server` and `params`, then await the listener
close when one existed. Never throws. -/
def tunnelStop (_t : TunnelState) : TunnelState :=
  { server := none, params := none }

/-! ## Relay wiring (from the `net.createServer` connection handler) -/

/-- Observable state of one endpoint of a relay pair. -/
inductive EndpointState where
  /-- still open -/
  | opened
  /-- gracefully ended (`end()`: buffered writes may flush) -/
  | ended
  /-- abruptly destroyed (`destroy(err)`) -/
  | destroyed
deriving Repr, DecidableEq

/-- One forwarded local connection: the local socket, the remote channel
(`stream`), and how many log lines the handlers emitted. -/
structure RelayState where
  sock : EndpointState
  stream : EndpointState
  logged : Nat
deriving Repr, DecidableEq

/-- Handler `stream.on('close', () => sock.end())`. -/
def relayOnStreamClose (s : RelayState) : RelayState :=
  { s with sock := .ended }

/-- Handler `stream.on('error', e => { log(...); sock.destroy(e) })`. -/
def relayOnStreamError (s : RelayState) : RelayState :=
  { s with sock := .destroyed, logged := s.logged + 1 }

/-- Handler `sock.on('error', e => log(...))` — it only logs. -/
def relayOnSockError (s : RelayState) : RelayState :=
  { s with logged := s.logged + 1 }

/-- `forwardOut` callback with an error: `log(...); sock.destroy(err)`. -/
def relayOnForwardOutError (s : RelayState) : RelayState :=
  { s with sock := .destroyed, logged := s.logged + 1 }

/-! ## Remote listing (from `SshSession.listRemote`) -/

inductive EntryKind where
  | dir
  | file
  | other
deriving Repr, DecidableEq

/-- A listing row as returned to the renderer: `{ name, kind }`. -/
structure RemoteEntry where
  name : String
  kind : EntryKind
deriving Repr, DecidableEq

/-- A raw `sftp.readdir` row: `filename` plus what `attrs.isDirectory()` /
`attrs.isFile()` report (`false` when the method is absent). -/
structure RawEntry where
  filename : String
  isDirectory : Bool
  isFile : Bool
deriving Repr, DecidableEq

/-- The `.map` step of `listRemote`. -/
def entryOfRaw (e : RawEntry) : RemoteEntry :=
  { name := e.filename,
    kind := if e.isDirectory then .dir else if e.isFile then .file else .other }

/-- `a.name.localeCompare(b.name)`, modelled as code-unit comparison
(the spec allows any locale-aware comparison; the claims only need its sign). -/
def nameCompare (a b : String) : Int :=
  if a < b then -1 else if b < a then 1 else 0

/-- The `.sort` comparator of `listRemote`:
`a.kind === b.kind ? a.name.localeCompare(b.name) : a.kind === 'dir' ? -1 : 1`. -/
def entryCompare (a b : RemoteEntry) : Int :=
  if a.kind = b.kind then nameCompare a.name b.name
  else if a.kind = .dir then -1 else 1

/-- Comparator-driven insertion into a list: the element is placed before the
first `y` the comparator says sorts after it (`cmp y x > 0`). -/
def insertByCmp {α : Type} (cmp : α → α → Int) (x : α) : List α → List α
  | [] => [x]
  | y :: ys => if cmp y x > 0 then x :: y :: ys else y :: insertByCmp cmp x ys

/-- Deterministic executable model of `Array.prototype.sort(comparator)`
(comparator-driven insertion sort; ECMAScript leaves the order
implementation-defined when the comparator is not consistent). -/
def sortByCmp {α : Type} (cmp : α → α → Int) : List α → List α
  | [] => []
  | x :: xs => insertByCmp cmp x (sortByCmp cmp xs)

inductive ListErr where
  | notConnected
  | transportError
deriving Repr, DecidableEq

/-- `SshSession.listRemote(dir)`: `requireSftp`, then `sftp.readdir` (its raw
rows, or `none` for a readdir failure, are the oracle), then filter out `.`
and `..`, map to `{ name, kind }`, and sort with `entryCompare`. -/
def listRemote (st : SessionState) (raw : Option (List RawEntry)) :
    Except ListErr (List RemoteEntry) :=
  if st.client.isNone || st.sftp.isNone then .error .notConnected
  else
    match raw with
    | none => .error .transportError
    | some rows =>
      .ok (sortByCmp entryCompare
        ((rows.filter (fun e => e.filename != "." && e.filename != "..")).map entryOfRaw))

/-! ## Upload (from `SshSession.uploadFiles`) -/

/-- Split a character list on a separator character; like `String.splitOn`
with a one-character separator (the empty input yields one empty segment). -/
def splitOnChar (sep : Char) : List Char → List (List Char)
  | [] => [[]]
  | c :: cs =>
    match splitOnChar sep cs with
    | [] => [[c]]
    | seg :: rest => if c = sep then [] :: seg :: rest else (c :: seg) :: rest

/-- The slash-separated segments of a path. -/
def slashSegs (p : String) : List String :=
  (splitOnChar '/' p.data).map List.asString

/-- Model of Node `path.basename` (posix flavor): the last non-empty
slash-separated segment; `'/'` for all-slash paths, `''` for the empty path.
(On win32 the backslash is also a separator; no claim depends on that.) -/
def basename (p : String) : String :=
  match ((slashSegs p).filter (fun s => s ≠ "")).getLast? with
  | some s => s
  | none => if p = "" then "" else "/"

/-- `remoteDir.replace(/\\/g, '/')`. -/
def replaceBackslashes (s : String) : String :=
  ⟨s.data.map (fun c => if c = '\\' then '/' else c)⟩

/-- Segment normalization of Node `path.posix.normalize`: drop `'.'` and empty
segments, resolve `'..'` against the preceding segment (kept when relative and
nothing precedes, dropped at the root of an absolute path). -/
def normSegs (isAbs : Bool) (segs : List String) : List String :=
  segs.foldl
    (fun acc s =>
      if s = "." then acc
      else if s = ".." then
        match acc.getLast? with
        | some t => if t = ".." then acc ++ [s] else acc.dropLast
        | none => if isAbs then acc else [s]
      else acc ++ [s])
    []

/-- Model of Node `path.posix.join(a, b)`: concatenate the non-empty parts
with `'/'` and normalize; the empty join is `'.'`. -/
def posixJoin (a b : String) : String :=
  let raw := if a = "" then b else if b = "" then a else a ++ "/" ++ b
  if raw = "" then "."
  else
    let isAbs := raw.data.head? == some '/'
    let body := String.intercalate "/"
      (normSegs isAbs ((slashSegs raw).filter (fun s => s ≠ "")))
    if isAbs then "/" ++ body else if body = "" then "." else body

/-- The remote target of one upload:
`remoteDir === '.' ? base : path.posix.join(remoteDir.replace(/\\/g,'/'), base)`. -/
def remoteTarget (remoteDir localPath : String) : String :=
  let base := basename localPath
  if remoteDir = "." then base else posixJoin (replaceBackslashes remoteDir) base

inductive UpErr where
  | notConnected
  /-- `sftp.fastPut` rejected for this local/remote pair. -/
  | transferFailed (localPath : String) (remotePath : String)
deriving Repr, DecidableEq

/-- What an `uploadFiles` call produced: the `(local, remote)` pairs attempted
(each preceded by an `UPLOAD local -> remote` log line), the pairs that
completed, and the first error if any. -/
structure UploadResult where
  attempted : List (String × String)
  completed : List (String × String)
  error : Option UpErr
deriving Repr, DecidableEq

/-- The `for (const localPath of localPaths)` loop body of `uploadFiles`:
compute the target, log, await `fastPut`; the first rejection aborts the loop. -/
def uploadLoop (putOk : String → Bool) (remoteDir : String) :
    List String → UploadResult
  | [] => { attempted := [], completed := [], error := none }
  | lp :: rest =>
    let rp := remoteTarget remoteDir lp
    if putOk lp then
      let r := uploadLoop putOk remoteDir rest
      { attempted := (lp, rp) :: r.attempted,
        completed := (lp, rp) :: r.completed,
        error := r.error }
    else
      { attempted := [(lp, rp)], completed := [],
        error := some (.transferFailed lp rp) }

/-- `SshSession.uploadFiles(localPaths, remoteDir)`: `requireSftp`, then the
sequential upload loop; `putOk` is the oracle for each `fastPut` outcome. -/
def uploadFiles (st : SessionState) (localPaths : List String)
    (remoteDir : String) (putOk : String → Bool) : UploadResult :=
  if st.client.isNone || st.sftp.isNone then
    { attempted := [], completed := [], error := some .notConnected }
  else
    uploadLoop putOk remoteDir localPaths

/-! ## Derived notions used by the statements -/

/-- `N` successive `disconnect()` calls, each with its own internal-failure
oracle. -/
def disconnectIter : Nat → SessionState → (Nat → TeardownOracle) → SessionState
  | 0, st, _ => st
  | n + 1, st, os => disconnectIter n (sessionDisconnect st (os 0)) (fun k => os (k + 1))

/-- Rank of the kinds in the order the spec claims for `listRemote` output. -/
def kindRank : EntryKind → Nat
  | .dir => 0
  | .file => 1
  | .other => 2

/-- The pairwise order the SPEC claims for `listRemote` output (written from
the spec sentence, to be compared against the code): strictly earlier kind, or
equal kind and non-decreasing names. -/
def specClaimedOrder (a b : RemoteEntry) : Prop :=
  kindRank a.kind < kindRank b.kind ∨ (a.kind = b.kind ∧ a.name ≤ b.name)

/-- A listing sorted exactly as the spec sentence claims. -/
def specSorted (l : List RemoteEntry) : Prop :=
  l.Pairwise specClaimedOrder

/-- The part of the claimed order the code does guarantee: `dir` entries come
first, and among themselves their names are non-decreasing. -/
def dirsFirstRel (a b : RemoteEntry) : Prop :=
  (b.kind = .dir → a.kind = .dir) ∧
  (a.kind = .dir → b.kind = .dir → a.name ≤ b.name)

/-! ## Helper lemmas -/

theorem sessionDisconnect_clears (st : SessionState) (o : TeardownOracle) :
    sessionDisconnect st o = disconnectedState := rfl

theorem disconnectIter_fixed (n : Nat) (os : Nat → TeardownOracle) :
    disconnectIter n disconnectedState os = disconnectedState := by
  induction n generalizing os with
  | zero => rfl
  | succ k ih => simpa [disconnectIter, sessionDisconnect_clears] using ih _

/-! ## Claim theorems -/

/-- C4 (counterexample): the claim says a local-socket error destroys the
remote channel abruptly; the code's `sock.on('error', ...)` handler only logs,
so after it fires on a fresh relay the remote channel is still open, not
destroyed. -/
theorem relay_sock_error_c4_cex :
    (relayOnSockError { sock := .opened, stream := .opened, logged := 0 }).stream
      = .opened ∧
    EndpointState.opened ≠ EndpointState.destroyed := by
  exact ⟨rfl, by decide⟩

/-- C4 (amended): on remote-channel close the local socket is ended
gracefully; on remote-channel error (and on a channel-open failure) the local
socket is destroyed abruptly and the failure is logged; on local-socket error
the failure is only logged — neither endpoint is touched and in particular the
remote channel is not destroyed. All handlers are total state transformers:
no failure propagates to the Tunnel or Session. -/
theorem relay_handlers_c4 (s : RelayState) :
    (relayOnStreamClose s).sock = .ended ∧
    (relayOnStreamClose s).stream = s.stream ∧
    (relayOnStreamError s).sock = .destroyed ∧
    (relayOnStreamError s).logged = s.logged + 1 ∧
    (relayOnForwardOutError s).sock = .destroyed ∧
    (relayOnSockError s).sock = s.sock ∧
    (relayOnSockError s).stream = s.stream ∧
    (relayOnSockError s).logged = s.logged + 1 := by
  simp [relayOnStreamClose, relayOnStreamError, relayOnForwardOutError,
    relayOnSockError]

/-- C5: with no truthy password, no truthy private-key path, and the agent
either not enabled or not resolvable, `connect` throws a configuration error,
performs no network round trip, and leaves the session fully disconnected. -/
theorem connect_no_auth_config_error_c5 (st : SessionState) (p : ConnectParams)
    (env : Env) (o : TransportOracle)
    (hpw : truthy p.password = false)
    (hpk : truthy p.privateKeyPath = false)
    (hag : p.useAgent = false ∨ resolveAgent p env = none) :
    ((sessionConnect st p env o).error = some .configNoMethod ∨
      (sessionConnect st p env o).error = some .configAgent) ∧
    (sessionConnect st p env o).events = [] ∧
    (sessionConnect st p env o).state = disconnectedState ∧
    isConnected (sessionConnect st p env o).state = false := by
  by_cases hua : p.useAgent
  · have hres : resolveAgent p env = none := by
      rcases hag with h | h
      · rw [hua] at h; cases h
      · exact h
    simp [sessionConnect, resolveAuth, hua, hres, sessionDisconnect_clears,
      isConnected, disconnectedState]
  · simp [sessionConnect, resolveAuth, hua, hpk, hpw, sessionDisconnect_clears,
      isConnected, disconnectedState]

/-- C5 witness at a concrete parameter set with no method populated. -/
theorem connect_no_auth_config_error_c5_witness :
    ((sessionConnect disconnectedState
        { host := "h", port := 22, username := "u" } {} {}).error
        = some .configNoMethod ∨
      (sessionConnect disconnectedState
        { host := "h", port := 22, username := "u" } {} {}).error
        = some .configAgent) ∧
    (sessionConnect disconnectedState
      { host := "h", port := 22, username := "u" } {} {}).events = [] ∧
    (sessionConnect disconnectedState
      { host := "h", port := 22, username := "u" } {} {}).state
      = disconnectedState ∧
    isConnected (sessionConnect disconnectedState
      { host := "h", port := 22, username := "u" } {} {}).state = false :=
  connect_no_auth_config_error_c5 disconnectedState
    { host := "h", port := 22, username := "u" } {} {} rfl rfl (Or.inl rfl)

/-- C7: any positive number of successive `disconnect()` calls — whichever
internal teardown steps fail, since every step's failure is swallowed — ends
in the same terminal state with no tunnel, no sftp handle and no transport
handle; the model is a total function, so no call throws to the caller. -/
theorem disconnect_idempotent_c7 (N : Nat) (hN : 1 ≤ N) (st : SessionState)
    (os : Nat → TeardownOracle) :
    disconnectIter N st os = disconnectedState ∧
    (disconnectIter N st os).client = none ∧
    (disconnectIter N st os).sftp = none ∧
    (disconnectIter N st os).tunnel = none := by
  obtain ⟨n, rfl⟩ : ∃ n, N = n + 1 := ⟨N - 1, by omega⟩
  have h : disconnectIter (n + 1) st os = disconnectedState := by
    simpa [disconnectIter, sessionDisconnect_clears] using
      disconnectIter_fixed n (fun k => os (k + 1))
  exact ⟨h, by rw [h]; rfl, by rw [h]; rfl, by rw [h]; rfl⟩

/-- C7 witness: three disconnect calls on a fully connected session, the
second one with every internal step failing. -/
theorem disconnect_idempotent_c7_witness :
    disconnectIter 3
      { client := some 7, sftp := some 8, tunnel := some { server := some 9 } }
      (fun k => if k = 1 then
        { tunnelStopFails := true, sftpEndFails := true, clientEndFails := true }
        else {}) = disconnectedState :=
  (disconnect_idempotent_c7 3 (by decide)
    { client := some 7, sftp := some 8, tunnel := some { server := some 9 } }
    (fun k => if k = 1 then
      { tunnelStopFails := true, sftpEndFails := true, clientEndFails := true }
      else {})).1

/-- C8: `Tunnel.start` while the listener handle is present throws
`AlreadyRunning` before touching any field: the stored listener and parameters
are unchanged and the tunnel still reports running. -/
theorem startTunnel_already_running_c8 (t : TunnelState) (p : TunnelParams)
    (bindOk : Bool) (h s : Nat) (hrun : t.server = some s) :
    tunnelStart t p bindOk h
      = { state := t, error := some .alreadyRunning, binds := [] } ∧
    (tunnelStart t p bindOk h).state = t ∧
    tunnelIsRunning (tunnelStart t p bindOk h).state = true := by
  have hs : t.server.isSome = true := by rw [hrun]; rfl
  refine ⟨?_, ?_, ?_⟩ <;> simp [tunnelStart, hs, tunnelIsRunning]

/-- C8 witness: a running tunnel with stored parameters rejects a second
start and is unchanged. -/
theorem startTunnel_already_running_c8_witness :
    tunnelStart
      { server := some 5, params := some ⟨1, "r", 2⟩ }
      { localPort := 3, remoteHost := "x", remotePort := 4 } true 6
      = { state := { server := some 5, params := some ⟨1, "r", 2⟩ },
          error := some .alreadyRunning, binds := [] } :=
  (startTunnel_already_running_c8
    { server := some 5, params := some ⟨1, "r", 2⟩ }
    { localPort := 3, remoteHost := "x", remotePort := 4 } true 6 5 rfl).1

/-- C9: a successful `Tunnel.start` performs exactly one listener bind, at
host `127.0.0.1` and the requested local port — never a wildcard address. -/
theorem tunnel_bind_loopback_c9 (t : TunnelState) (p : TunnelParams)
    (bindOk : Bool) (h : Nat)
    (hok : (tunnelStart t p bindOk h).error = none) :
    (tunnelStart t p bindOk h).binds
      = [{ host := "127.0.0.1", port := p.localPort }] ∧
    ∀ b ∈ (tunnelStart t p bindOk h).binds,
      b.host = "127.0.0.1" ∧ b.port = p.localPort := by
  by_cases ht : t.server.isSome
  · simp [tunnelStart, ht] at hok
  · cases bindOk with
    | false => simp [tunnelStart, ht] at hok
    | true =>
      constructor
      · simp [tunnelStart, ht]
      · intro b hb
        simp [tunnelStart, ht] at hb
        simp [hb]

/-- C9 witness: starting a stopped tunnel with a successful bind. -/
theorem tunnel_bind_loopback_c9_witness :
    (tunnelStart {} { localPort := 15432, remoteHost := "db", remotePort := 5432 }
      true 1).binds = [{ host := "127.0.0.1", port := 15432 }] :=
  (tunnel_bind_loopback_c9 {}
    { localPort := 15432, remoteHost := "db", remotePort := 5432 } true 1 rfl).1

/-- C10: when the listener bind fails on a stopped tunnel, the bind error is
surfaced, no listener handle is stored, `isRunning()` is false, and a
subsequent `start` is never rejected with `AlreadyRunning`. -/
theorem tunnel_bind_failure_retryable_c10 (t : TunnelState) (p : TunnelParams)
    (h : Nat) (hstop : t.server = none) :
    (tunnelStart t p false h).error = some .bindError ∧
    (tunnelStart t p false h).state.server = none ∧
    tunnelIsRunning (tunnelStart t p false h).state = false ∧
    ∀ (p' : TunnelParams) (ok' : Bool) (h' : Nat),
      (tunnelStart (tunnelStart t p false h).state p' ok' h').error
        ≠ some .alreadyRunning := by
  have hs : t.server.isSome = false := by rw [hstop]; rfl
  refine ⟨by simp [tunnelStart, hs], by simp [tunnelStart, hs, hstop],
    by simp [tunnelStart, tunnelIsRunning, hs, hstop], ?_⟩
  intro p' ok' h'
  cases ok' <;> simp [tunnelStart, hs, hstop]

/-- C10 witness: bind failure at a concrete port leaves the tunnel stopped and
retryable. -/
theorem tunnel_bind_failure_retryable_c10_witness :
    (tunnelStart {} { localPort := 8080, remoteHost := "r", remotePort := 80 }
      false 1).error = some .bindError ∧
    tunnelIsRunning (tunnelStart {}
      { localPort := 8080, remoteHost := "r", remotePort := 80 } false 1).state
      = false := by
  have h := tunnel_bind_failure_retryable_c10 {}
    { localPort := 8080, remoteHost := "r", remotePort := 80 } 1 rfl
  exact ⟨h.1, h.2.2.1⟩

theorem sessionConnect_auth_eq (st : SessionState) (p : ConnectParams)
    (env : Env) (o : TransportOracle) :
    (sessionConnect st p env o).auth = (resolveAuth p env).toOption := by
  unfold sessionConnect
  cases hr : resolveAuth p env with
  | error e => rfl
  | ok a =>
    simp only [Except.toOption]
    split
    · rfl
    · split
      · rfl
      · split <;> rfl

theorem resolveAuth_error_config (p : ConnectParams) (env : Env) (e : ConnErr)
    (h : resolveAuth p env = .error e) : e.isConfigError = true := by
  unfold resolveAuth at h
  by_cases hua : p.useAgent = true
  · rw [if_pos hua] at h
    cases hres : resolveAgent p env <;> rw [hres] at h
    · simp only [Except.error.injEq] at h
      subst h
      rfl
    · simp at h
  · rw [if_neg hua] at h
    by_cases hpk : truthy p.privateKeyPath = true
    · rw [if_pos hpk] at h
      simp at h
    · rw [if_neg hpk] at h
      by_cases hpw : truthy p.password = true
      · rw [if_pos hpw] at h
        simp at h
      · rw [if_neg hpw] at h
        simp only [Except.error.injEq] at h
        subst h
        rfl

theorem sessionConnect_spec (st : SessionState) (p : ConnectParams) (env : Env)
    (o : TransportOracle) :
    (∃ e, resolveAuth p env = .error e ∧
      sessionConnect st p env o
        = { state := disconnectedState, error := some e, auth := none,
            events := [] }) ∨
    (∃ a, resolveAuth p env = .ok a ∧ keyReadFails a o = true ∧
      sessionConnect st p env o
        = { state := disconnectedState, error := some .keyReadError,
            auth := some a, events := [] }) ∨
    (∃ a, resolveAuth p env = .ok a ∧ keyReadFails a o = false ∧
      o.handshakeOk = false ∧
      sessionConnect st p env o
        = { state := { client := some o.clientHandle, sftp := none, tunnel := none },
            error := some .networkError, auth := some a,
            events := [.tcpHandshake] }) ∨
    (∃ a, resolveAuth p env = .ok a ∧ keyReadFails a o = false ∧
      o.handshakeOk = true ∧ o.sftpOk = false ∧
      sessionConnect st p env o
        = { state := { client := some o.clientHandle, sftp := none, tunnel := none },
            error := some .sftpError, auth := some a,
            events := [.tcpHandshake, .sftpOpen] }) ∨
    (∃ a, resolveAuth p env = .ok a ∧ keyReadFails a o = false ∧
      o.handshakeOk = true ∧ o.sftpOk = true ∧
      sessionConnect st p env o
        = { state := ⟨some o.clientHandle, some o.sftpHandle, some ⟨none, none⟩⟩,
            error := none, auth := some a,
            events := [.tcpHandshake, .sftpOpen] }) := by
  cases hr : resolveAuth p env with
  | error e =>
    exact Or.inl ⟨e, rfl,
      by simp [sessionConnect, hr, sessionDisconnect, disconnectedState]⟩
  | ok a =>
    cases hk : keyReadFails a o with
    | true =>
      exact Or.inr (Or.inl ⟨a, rfl, hk,
        by simp [sessionConnect, hr, hk, sessionDisconnect, disconnectedState]⟩)
    | false =>
      cases hh : o.handshakeOk with
      | false =>
        exact Or.inr (Or.inr (Or.inl ⟨a, rfl, hk, rfl,
          by simp [sessionConnect, hr, hk, hh, sessionDisconnect]⟩))
      | true =>
        cases hs : o.sftpOk with
        | false =>
          exact Or.inr (Or.inr (Or.inr (Or.inl ⟨a, rfl, hk, rfl, rfl,
            by simp [sessionConnect, hr, hk, hh, hs, sessionDisconnect]⟩)))
        | true =>
          exact Or.inr (Or.inr (Or.inr (Or.inr ⟨a, rfl, hk, rfl, rfl,
            by simp [sessionConnect, hr, hk, hh, hs, sessionDisconnect]⟩)))

/-- C2 (counterexample): with all three methods populated (truthy password,
truthy key path, agent enabled with a socket), the config is given the agent
method, not the password the claim demands. -/
theorem auth_precedence_c2_cex :
    (sessionConnect disconnectedState
      { host := "h", port := 22, username := "u", password := some "pw",
        privateKeyPath := some "/k", useAgent := true,
        agentSockPath := some "/sock" } {} {}).auth
      = some (.agent "/sock") ∧
    some (AuthChoice.agent "/sock") ≠ some (AuthChoice.password "pw") ∧
    some (AuthChoice.agent "/sock") ≠ some (AuthChoice.privateKey "/k" none) := by
  refine ⟨rfl, by decide, by decide⟩

/-- C2 (amended): the precedence is agent > private-key > password. When
`useAgent` is set the agent method is chosen whenever a socket resolves (and a
`ConfigError` is thrown otherwise — there is no fallback to the other
methods); otherwise a truthy `privateKeyPath` selects key authentication;
otherwise a truthy `password` selects password authentication. -/
theorem auth_precedence_c2 (st : SessionState) (p : ConnectParams) (env : Env)
    (o : TransportOracle) :
    (p.useAgent = true →
      (sessionConnect st p env o).auth = (resolveAgent p env).map .agent) ∧
    (p.useAgent = false → truthy p.privateKeyPath = true →
      (sessionConnect st p env o).auth
        = some (.privateKey (p.privateKeyPath.getD "")
            (p.privateKeyPassphrase.filter (fun s => s ≠ "")))) ∧
    (p.useAgent = false → truthy p.privateKeyPath = false →
      truthy p.password = true →
      (sessionConnect st p env o).auth = some (.password (p.password.getD ""))) := by
  rw [sessionConnect_auth_eq]
  refine ⟨fun hua => ?_, fun hua hpk => ?_, fun hua hpk hpw => ?_⟩
  · unfold resolveAuth
    cases hres : resolveAgent p env <;> simp [hua, hres, Except.toOption]
  · unfold resolveAuth
    simp [hua, hpk, Except.toOption]
  · unfold resolveAuth
    simp [hua, hpk, hpw, Except.toOption]

/-- C2 witness: the three precedence branches at concrete inputs — agent
chosen over both other methods; key chosen over password; password chosen
alone. -/
theorem auth_precedence_c2_witness :
    (sessionConnect disconnectedState
      { host := "h", port := 22, username := "u", password := some "pw",
        privateKeyPath := some "/k", useAgent := true,
        agentSockPath := some "/s" } {} {}).auth
      = (resolveAgent
          { host := "h", port := 22, username := "u", password := some "pw",
            privateKeyPath := some "/k", useAgent := true,
            agentSockPath := some "/s" } {}).map .agent ∧
    (sessionConnect disconnectedState
      { host := "h", port := 22, username := "u", password := some "pw",
        privateKeyPath := some "/k" } {} {}).auth
      = some (.privateKey "/k" none) ∧
    (sessionConnect disconnectedState
      { host := "h", port := 22, username := "u", password := some "pw" }
      {} {}).auth = some (.password "pw") := by
  refine ⟨(auth_precedence_c2 disconnectedState
      { host := "h", port := 22, username := "u", password := some "pw",
        privateKeyPath := some "/k", useAgent := true,
        agentSockPath := some "/s" } {} {}).1 rfl, ?_, ?_⟩
  · have h := (auth_precedence_c2 disconnectedState
      { host := "h", port := 22, username := "u", password := some "pw",
        privateKeyPath := some "/k" } {} {}).2.1 rfl rfl
    simpa using h
  · have h := (auth_precedence_c2 disconnectedState
      { host := "h", port := 22, username := "u", password := some "pw" }
      {} {}).2.2 rfl rfl rfl
    simpa using h

/-- C1 (counterexample): with password auth and a failing transport
handshake, `connect` surfaces a network error, yet the transport handle from
the failed attempt is still stored and `isConnected()` reports true — not the
Disconnected state the claim demands. -/
theorem connect_partial_state_c1_cex :
    (sessionConnect disconnectedState
      { host := "h", port := 22, username := "u", password := some "pw" } {}
      { handshakeOk := false }).error = some .networkError ∧
    (sessionConnect disconnectedState
      { host := "h", port := 22, username := "u", password := some "pw" } {}
      { handshakeOk := false }).state.client = some 0 ∧
    isConnected (sessionConnect disconnectedState
      { host := "h", port := 22, username := "u", password := some "pw" } {}
      { handshakeOk := false }).state = true := by
  exact ⟨rfl, rfl, rfl⟩

/-- C1 (amended): a failure during authentication resolution or key-file
reading leaves the session fully disconnected; any failure leaves no
subsystem handle and no tunnel from the attempt; but a transport-handshake or
subsystem-open failure leaves the transport handle of the failed attempt
stored, so `isConnected()` reports true until the next disconnect/connect. -/
theorem connect_failure_state_c1 (st : SessionState) (p : ConnectParams)
    (env : Env) (o : TransportOracle) :
    (∀ e, (sessionConnect st p env o).error = some e →
      (sessionConnect st p env o).state.sftp = none ∧
      (sessionConnect st p env o).state.tunnel = none) ∧
    (∀ e, (sessionConnect st p env o).error = some e →
      (e.isConfigError = true ∨ e = .keyReadError) →
      (sessionConnect st p env o).state = disconnectedState) ∧
    ((sessionConnect st p env o).error = some .networkError ∨
      (sessionConnect st p env o).error = some .sftpError →
      (sessionConnect st p env o).state.client = some o.clientHandle ∧
      isConnected (sessionConnect st p env o).state = true) := by
  rcases sessionConnect_spec st p env o with
    ⟨e, hr, heq⟩ | ⟨a, hr, hk, heq⟩ | ⟨a, hr, hk, hh, heq⟩ |
    ⟨a, hr, hk, hh, hs, heq⟩ | ⟨a, hr, hk, hh, hs, heq⟩ <;> rw [heq]
  · have hcfg := resolveAuth_error_config p env e hr
    refine ⟨fun e' he' => ⟨rfl, rfl⟩, fun e' he' _ => rfl, ?_⟩
    rintro (h | h) <;> simp only [Option.some.injEq] at h <;> subst h <;>
      simp [ConnErr.isConfigError] at hcfg
  · refine ⟨fun e' he' => ⟨rfl, rfl⟩, fun e' he' _ => rfl, ?_⟩
    rintro (h | h) <;> simp at h
  · refine ⟨fun e' he' => ⟨rfl, rfl⟩, ?_, fun _ => ⟨rfl, rfl⟩⟩
    intro e' he' hcase
    simp only [Option.some.injEq] at he'
    subst he'
    rcases hcase with h | h <;> simp [ConnErr.isConfigError] at h
  · refine ⟨fun e' he' => ⟨rfl, rfl⟩, ?_, fun _ => ⟨rfl, rfl⟩⟩
    intro e' he' hcase
    simp only [Option.some.injEq] at he'
    subst he'
    rcases hcase with h | h <;> simp [ConnErr.isConfigError] at h
  · exact ⟨fun e' he' => by simp at he', fun e' he' _ => by simp at he',
      fun h => by rcases h with h | h <;> simp at h⟩

/-- C1 witness: the amended statement at the counterexample's input — the
handshake fails, no sftp handle or tunnel is retained, and the dead transport
handle is still stored. -/
theorem connect_failure_state_c1_witness :
    (sessionConnect disconnectedState
      { host := "h", port := 22, username := "u", password := some "pw" } {}
      { handshakeOk := false }).state.sftp = none ∧
    (sessionConnect disconnectedState
      { host := "h", port := 22, username := "u", password := some "pw" } {}
      { handshakeOk := false }).state.tunnel = none ∧
    (sessionConnect disconnectedState
      { host := "h", port := 22, username := "u", password := some "pw" } {}
      { handshakeOk := false }).state.client = some 0 := by
  have h := connect_failure_state_c1 disconnectedState
    { host := "h", port := 22, username := "u", password := some "pw" } {}
    { handshakeOk := false }
  have h1 := h.1 .networkError rfl
  have h3 := h.2.2 (Or.inl rfl)
  exact ⟨h1.1, h1.2, h3.1⟩

theorem uploadLoop_all_ok (putOk : String → Bool) (remoteDir : String) :
    ∀ paths : List String, (∀ q ∈ paths, putOk q = true) →
      uploadLoop putOk remoteDir paths
        = { attempted := paths.map (fun q => (q, remoteTarget remoteDir q)),
            completed := paths.map (fun q => (q, remoteTarget remoteDir q)),
            error := none }
  | [], _ => rfl
  | lp :: rest, h => by
    have hlp : putOk lp = true := h lp (List.mem_cons_self lp rest)
    have hrest := uploadLoop_all_ok putOk remoteDir rest
      (fun q hq => h q (List.mem_cons_of_mem lp hq))
    simp [uploadLoop, hlp, hrest]

theorem uploadLoop_first_fail (putOk : String → Bool) (remoteDir : String)
    (lp : String) (post : List String) (hlp : putOk lp = false) :
    ∀ pre : List String, (∀ q ∈ pre, putOk q = true) →
      uploadLoop putOk remoteDir (pre ++ lp :: post)
        = { attempted := (pre ++ [lp]).map (fun q => (q, remoteTarget remoteDir q)),
            completed := pre.map (fun q => (q, remoteTarget remoteDir q)),
            error := some (.transferFailed lp (remoteTarget remoteDir lp)) }
  | [], _ => by simp [uploadLoop, hlp]
  | q0 :: pre, h => by
    have hq0 : putOk q0 = true := h q0 (List.mem_cons_self q0 pre)
    have hrest := uploadLoop_first_fail putOk remoteDir lp post hlp pre
      (fun q hq => h q (List.mem_cons_of_mem q0 hq))
    simp [uploadLoop, hq0, hrest]

/-- C6: on a connected session, uploads run strictly sequentially in input
order, each targeting `remoteDir` joined with the local base name (the base
name alone when `remoteDir` is `"."` — that is what `remoteTarget` computes).
When every transfer succeeds, every file is attempted and completed in order
with no error; when the transfer of some path fails and everything before it
succeeded, exactly the files up to and including the failing one were
attempted, exactly those before it completed, nothing after it was attempted,
and the reported error names the failing file and its target. -/
theorem uploadFiles_sequential_c6 (st : SessionState) (paths : List String)
    (remoteDir : String) (putOk : String → Bool) (c s : Nat)
    (hc : st.client = some c) (hs : st.sftp = some s) :
    ((∀ q ∈ paths, putOk q = true) →
      uploadFiles st paths remoteDir putOk
        = { attempted := paths.map (fun q => (q, remoteTarget remoteDir q)),
            completed := paths.map (fun q => (q, remoteTarget remoteDir q)),
            error := none }) ∧
    (∀ (pre : List String) (lp : String) (post : List String),
      paths = pre ++ lp :: post → (∀ q ∈ pre, putOk q = true) →
      putOk lp = false →
      uploadFiles st paths remoteDir putOk
        = { attempted := (pre ++ [lp]).map (fun q => (q, remoteTarget remoteDir q)),
            completed := pre.map (fun q => (q, remoteTarget remoteDir q)),
            error := some (.transferFailed lp (remoteTarget remoteDir lp)) }) := by
  have hconn : (st.client.isNone || st.sftp.isNone) = false := by
    rw [hc, hs]; rfl
  constructor
  · intro hall
    rw [uploadFiles, hconn]
    exact uploadLoop_all_ok putOk remoteDir paths hall
  · intro pre lp post hsplit hpre hlp
    rw [uploadFiles, hconn, if_neg (by simp), hsplit]
    exact uploadLoop_first_fail putOk remoteDir lp post hlp pre hpre

/-- C6 witness: of `[x/a, b, c]` with `b` failing, `x/a` completes at target
`d/a`, `b` is attempted and reported, `c` is never attempted. -/
theorem uploadFiles_sequential_c6_witness :
    uploadFiles { client := some 0, sftp := some 0 } ["x/a", "b", "c"] "d"
      (fun q => q != "b")
      = { attempted := [("x/a", "d/a"), ("b", "d/b")],
          completed := [("x/a", "d/a")],
          error := some (.transferFailed "b" "d/b") } := by
  have h := (uploadFiles_sequential_c6 { client := some 0, sftp := some 0 }
    ["x/a", "b", "c"] "d" (fun q => q != "b") 0 0 rfl rfl).2
    ["x/a"] "b" ["c"] rfl (by decide) (by decide)
  rw [h]
  rfl

/-! ## Sorting lemmas for the listing comparator -/

theorem mem_insertByCmp {α : Type} (cmp : α → α → Int) (x a : α) :
    ∀ l : List α, (a ∈ insertByCmp cmp x l ↔ a = x ∨ a ∈ l)
  | [] => by simp [insertByCmp]
  | y :: ys => by
    unfold insertByCmp
    split
    · simp [List.mem_cons]
    · rw [List.mem_cons, mem_insertByCmp cmp x a ys, List.mem_cons]
      tauto

theorem mem_sortByCmp {α : Type} (cmp : α → α → Int) (a : α) :
    ∀ l : List α, (a ∈ sortByCmp cmp l ↔ a ∈ l)
  | [] => Iff.rfl
  | x :: xs => by
    rw [sortByCmp, mem_insertByCmp, mem_sortByCmp cmp a xs, List.mem_cons]

theorem pairwise_insertByCmp {α : Type} (cmp : α → α → Int) (x : α) :
    ∀ l : List α,
      (∀ b ∈ l, 0 < cmp b x → cmp x b ≤ 0) →
      (∀ b ∈ l, ∀ d ∈ l, cmp x b ≤ 0 → cmp b d ≤ 0 → cmp x d ≤ 0) →
      l.Pairwise (fun a b => cmp a b ≤ 0) →
      (insertByCmp cmp x l).Pairwise (fun a b => cmp a b ≤ 0)
  | [], _, _, _ => List.pairwise_singleton _ x
  | y :: ys, htot, htrans, hpw => by
    rcases List.pairwise_cons.mp hpw with ⟨hy, hys⟩
    unfold insertByCmp
    split
    · rename_i hyx
      have hxy : cmp x y ≤ 0 := htot y (List.mem_cons_self y ys) hyx
      refine List.pairwise_cons.mpr ⟨?_, hpw⟩
      intro b hb
      rcases List.mem_cons.mp hb with rfl | hb
      · exact hxy
      · exact htrans y (List.mem_cons_self y ys) b
          (List.mem_cons_of_mem y hb) hxy (hy b hb)
    · rename_i hyx
      have hyx' : cmp y x ≤ 0 := by omega
      refine List.pairwise_cons.mpr ⟨?_, ?_⟩
      · intro b hb
        rcases (mem_insertByCmp cmp x b ys).mp hb with rfl | hb
        · exact hyx'
        · exact hy b hb
      · exact pairwise_insertByCmp cmp x ys
          (fun b hb => htot b (List.mem_cons_of_mem y hb))
          (fun b hb d hd => htrans b (List.mem_cons_of_mem y hb) d
            (List.mem_cons_of_mem y hd))
          hys

theorem pairwise_sortByCmp {α : Type} (cmp : α → α → Int) :
    ∀ l : List α,
      (∀ a ∈ l, ∀ b ∈ l, cmp a b ≤ 0 ∨ cmp b a ≤ 0) →
      (∀ a ∈ l, ∀ b ∈ l, ∀ d ∈ l, cmp a b ≤ 0 → cmp b d ≤ 0 → cmp a d ≤ 0) →
      (sortByCmp cmp l).Pairwise (fun a b => cmp a b ≤ 0)
  | [], _, _ => List.Pairwise.nil
  | x :: xs, htot, htrans => by
    rw [sortByCmp]
    refine pairwise_insertByCmp cmp x (sortByCmp cmp xs) ?_ ?_ ?_
    · intro b hb hbx
      have hb' := (mem_sortByCmp cmp b xs).mp hb
      rcases htot x (List.mem_cons_self x xs) b (List.mem_cons_of_mem x hb') with
        h | h
      · exact h
      · omega
    · intro b hb d hd
      exact htrans x (List.mem_cons_self x xs)
        b (List.mem_cons_of_mem x ((mem_sortByCmp cmp b xs).mp hb))
        d (List.mem_cons_of_mem x ((mem_sortByCmp cmp d xs).mp hd))
    · exact pairwise_sortByCmp cmp xs
        (fun a ha b hb => htot a (List.mem_cons_of_mem x ha)
          b (List.mem_cons_of_mem x hb))
        (fun a ha b hb d hd => htrans a (List.mem_cons_of_mem x ha)
          b (List.mem_cons_of_mem x hb) d (List.mem_cons_of_mem x hd))

theorem nameCompare_le_iff (a b : String) : nameCompare a b ≤ 0 ↔ a ≤ b := by
  unfold nameCompare
  split_ifs with h1 h2
  · exact iff_of_true (by omega) (le_of_lt h1)
  · exact iff_of_false (by omega) (not_le.mpr h2)
  · exact iff_of_true (by omega) (not_lt.mp h2)

theorem nameCompare_pos_iff (a b : String) : 0 < nameCompare a b ↔ b < a := by
  unfold nameCompare
  split_ifs with h1 h2
  · exact iff_of_false (by omega) (lt_asymm h1)
  · exact iff_of_true (by omega) h2
  · exact iff_of_false (by omega) h2

theorem entryCompare_eq_kind (a b : RemoteEntry) (h : a.kind = b.kind) :
    entryCompare a b = nameCompare a.name b.name := by
  unfold entryCompare
  rw [if_pos h]

theorem entryCompare_dir_left (a b : RemoteEntry) (ha : a.kind = .dir)
    (hb : b.kind ≠ .dir) : entryCompare a b = -1 := by
  have hne : a.kind ≠ b.kind := by rw [ha]; exact fun h => hb h.symm
  unfold entryCompare
  rw [if_neg hne, if_pos ha]

theorem entryCompare_nondir_dir (a b : RemoteEntry) (ha : a.kind ≠ .dir)
    (hb : b.kind = .dir) : entryCompare a b = 1 := by
  have hne : a.kind ≠ b.kind := by rw [hb]; exact ha
  unfold entryCompare
  rw [if_neg hne, if_neg ha]

theorem pairwise_dirsFirst_insert (x : RemoteEntry) :
    ∀ l : List RemoteEntry, l.Pairwise dirsFirstRel →
      (insertByCmp entryCompare x l).Pairwise dirsFirstRel
  | [], _ => List.pairwise_singleton _ x
  | y :: ys, hpw => by
    rcases List.pairwise_cons.mp hpw with ⟨hy, hys⟩
    unfold insertByCmp
    split
    · rename_i hyx
      have hxdir : y.kind = .dir → x.kind = .dir := by
        intro hyd
        by_contra hxd
        rw [entryCompare_dir_left y x hyd hxd] at hyx
        omega
      have hnames : x.kind = .dir → y.kind = .dir → x.name ≤ y.name := by
        intro hxd hyd
        rw [entryCompare_eq_kind y x (by rw [hyd, hxd])] at hyx
        exact le_of_lt ((nameCompare_pos_iff _ _).mp hyx)
      refine List.pairwise_cons.mpr ⟨?_, hpw⟩
      intro b hb
      rcases List.mem_cons.mp hb with rfl | hb
      · exact ⟨hxdir, hnames⟩
      · have hyb := hy b hb
        refine ⟨fun hbd => hxdir (hyb.1 hbd), fun hxd hbd => ?_⟩
        have hyd := hyb.1 hbd
        exact le_trans (hnames hxd hyd) (hyb.2 hyd hbd)
    · rename_i hyx
      have hyx' : entryCompare y x ≤ 0 := by omega
      have hRyx : dirsFirstRel y x := by
        refine ⟨?_, ?_⟩
        · intro hxd
          by_contra hyd
          rw [entryCompare_nondir_dir y x hyd hxd] at hyx'
          omega
        · intro hyd hxd
          rw [entryCompare_eq_kind y x (by rw [hyd, hxd])] at hyx'
          exact (nameCompare_le_iff _ _).mp hyx'
      refine List.pairwise_cons.mpr ⟨?_, pairwise_dirsFirst_insert x ys hys⟩
      intro b hb
      rcases (mem_insertByCmp entryCompare x b ys).mp hb with rfl | hb
      · exact hRyx
      · exact hy b hb

theorem pairwise_dirsFirst_sort :
    ∀ l : List RemoteEntry, (sortByCmp entryCompare l).Pairwise dirsFirstRel
  | [] => List.Pairwise.nil
  | x :: xs => by
    rw [sortByCmp]
    exact pairwise_dirsFirst_insert x _ (pairwise_dirsFirst_sort xs)

theorem specOrder_of_entryCompare_le (a b : RemoteEntry)
    (h : entryCompare a b ≤ 0) : specClaimedOrder a b := by
  by_cases hk : a.kind = b.kind
  · right
    rw [entryCompare_eq_kind a b hk, nameCompare_le_iff] at h
    exact ⟨hk, h⟩
  · left
    by_cases had : a.kind = .dir
    · have hbd : b.kind ≠ .dir := fun hb => hk (had.trans hb.symm)
      rw [had]
      cases hbk : b.kind
      · exact absurd hbk hbd
      · simp [kindRank]
      · simp [kindRank]
    · have h1 : entryCompare a b = 1 := by
        unfold entryCompare
        rw [if_neg hk, if_neg had]
      rw [h1] at h
      omega

/-- Pairs in which at most the `dir` kind differs are compared consistently. -/
theorem entryCompare_total_cases (a b : RemoteEntry)
    (h : a.kind = b.kind ∨ a.kind = .dir ∨ b.kind = .dir) :
    entryCompare a b ≤ 0 ∨ entryCompare b a ≤ 0 := by
  by_cases hk : a.kind = b.kind
  · rw [entryCompare_eq_kind a b hk, entryCompare_eq_kind b a hk.symm]
    rcases le_total a.name b.name with hle | hle
    · exact Or.inl ((nameCompare_le_iff _ _).mpr hle)
    · exact Or.inr ((nameCompare_le_iff _ _).mpr hle)
  · rcases h with h | had | hbd
    · exact absurd h hk
    · have hbd : b.kind ≠ .dir := fun hb => hk (had.trans hb.symm)
      rw [entryCompare_dir_left a b had hbd]
      exact Or.inl (by omega)
    · have had : a.kind ≠ .dir := fun ha => hk (ha.trans hbd.symm)
      rw [entryCompare_dir_left b a hbd had]
      exact Or.inr (by omega)

theorem entryCompare_le_char (a b : RemoteEntry)
    (h : a.kind = b.kind ∨ a.kind = .dir ∨ b.kind = .dir) :
    entryCompare a b ≤ 0 ↔
      (a.kind = .dir ∧ b.kind ≠ .dir) ∨ (a.kind = b.kind ∧ a.name ≤ b.name) := by
  by_cases hk : a.kind = b.kind
  · rw [entryCompare_eq_kind a b hk, nameCompare_le_iff]
    constructor
    · exact fun hle => Or.inr ⟨hk, hle⟩
    · rintro (⟨had, hbd⟩ | ⟨-, hle⟩)
      · exact absurd (hk.symm.trans had) hbd
      · exact hle
  · rcases h with h | had | hbd
    · exact absurd h hk
    · have hbd : b.kind ≠ .dir := fun hb => hk (had.trans hb.symm)
      rw [entryCompare_dir_left a b had hbd]
      exact iff_of_true (by omega) (Or.inl ⟨had, hbd⟩)
    · have had : a.kind ≠ .dir := fun ha => hk (ha.trans hbd.symm)
      rw [entryCompare_nondir_dir a b had hbd]
      exact iff_of_false (by omega) (by rintro (⟨h1, -⟩ | ⟨h1, -⟩) <;> exact absurd h1 (by simp_all))

theorem entryCompare_trans_cases (a b c : RemoteEntry)
    (hab : a.kind = b.kind ∨ a.kind = .dir ∨ b.kind = .dir)
    (hbc : b.kind = c.kind ∨ b.kind = .dir ∨ c.kind = .dir)
    (h1 : entryCompare a b ≤ 0) (h2 : entryCompare b c ≤ 0) :
    entryCompare a c ≤ 0 := by
  rcases (entryCompare_le_char a b hab).mp h1 with ⟨had, hbd⟩ | ⟨hk1, hn1⟩
  · rcases (entryCompare_le_char b c hbc).mp h2 with ⟨hbd', -⟩ | ⟨hk2, -⟩
    · exact absurd hbd' hbd
    · have hcd : c.kind ≠ .dir := fun hc => hbd (hk2.trans hc)
      exact (entryCompare_le_char a c (Or.inr (Or.inl had))).mpr
        (Or.inl ⟨had, hcd⟩)
  · rcases (entryCompare_le_char b c hbc).mp h2 with ⟨hbd, hcd⟩ | ⟨hk2, hn2⟩
    · exact (entryCompare_le_char a c (Or.inr (Or.inl (hk1.trans hbd)))).mpr
        (Or.inl ⟨hk1.trans hbd, hcd⟩)
    · exact (entryCompare_le_char a c (Or.inl (hk1.trans hk2))).mpr
        (Or.inr ⟨hk1.trans hk2, le_trans hn1 hn2⟩)

theorem comparable_of_no_other (a b : RemoteEntry)
    (ha : a.kind ≠ .other) (hb : b.kind ≠ .other) :
    a.kind = b.kind ∨ a.kind = .dir ∨ b.kind = .dir := by
  cases hka : a.kind <;> cases hkb : b.kind <;> simp_all

theorem comparable_of_no_file (a b : RemoteEntry)
    (ha : a.kind ≠ .file) (hb : b.kind ≠ .file) :
    a.kind = b.kind ∨ a.kind = .dir ∨ b.kind = .dir := by
  cases hka : a.kind <;> cases hkb : b.kind <;> simp_all

theorem listRemote_ok_eq (st : SessionState) (raw : Option (List RawEntry))
    (l : List RemoteEntry) (h : listRemote st raw = .ok l) :
    ∃ rows, raw = some rows ∧
      l = sortByCmp entryCompare
        ((rows.filter (fun e => e.filename != "." && e.filename != "..")).map
          entryOfRaw) := by
  unfold listRemote at h
  split at h
  · exact Except.noConfusion h
  · cases raw with
    | none => exact Except.noConfusion h
    | some rows =>
      exact ⟨rows, rfl, (Except.ok.injEq _ _).mp h.symm⟩

/-- C3 (counterexample): the comparator is inconsistent between `file` and
`other` (it reports each as sorting after the other), so the claimed
file-before-other order fails: listing a non-file non-dir entry `a` followed
by a file `b` returns `other` before `file`. -/
theorem listRemote_sorted_c3_cex :
    listRemote { client := some 0, sftp := some 0 }
      (some [{ filename := "a", isDirectory := false, isFile := false },
             { filename := "b", isDirectory := false, isFile := true }])
      = .ok [{ name := "a", kind := .other }, { name := "b", kind := .file }] ∧
    ¬ specSorted [{ name := "a", kind := .other }, { name := "b", kind := .file }] := by
  refine ⟨rfl, ?_⟩
  intro h
  rcases List.pairwise_cons.mp h with ⟨hrel, -⟩
  have hab := hrel _ (List.mem_cons_self _ _)
  simp [specClaimedOrder, kindRank] at hab

/-- C3 (amended): in every successfully returned listing, `dir` entries
precede all `file` and `other` entries and are themselves in non-decreasing
name order; moreover, whenever the listing does not contain both a `file` and
an `other` entry, the full claimed order holds (kinds ordered dir, file,
other; names non-decreasing within a kind). When both non-dir kinds occur,
the comparator is inconsistent (it orders `file` after `other` and `other`
after `file`), so their relative order — and name order among non-dir
entries — is implementation-defined and not guaranteed. -/
theorem listRemote_sorted_c3 (st : SessionState) (raw : Option (List RawEntry))
    (l : List RemoteEntry) (hok : listRemote st raw = .ok l) :
    l.Pairwise dirsFirstRel ∧
    ((∀ e ∈ l, e.kind ≠ .other) → specSorted l) ∧
    ((∀ e ∈ l, e.kind ≠ .file) → specSorted l) := by
  obtain ⟨rows, -, rfl⟩ := listRemote_ok_eq st raw l hok
  refine ⟨pairwise_dirsFirst_sort _, ?_, ?_⟩
  · intro hno
    have hno' : ∀ e ∈ (rows.filter
        (fun e => e.filename != "." && e.filename != "..")).map entryOfRaw,
        e.kind ≠ .other :=
      fun e he => hno e ((mem_sortByCmp entryCompare e _).mpr he)
    exact List.Pairwise.imp
      (fun h => specOrder_of_entryCompare_le _ _ h)
      (pairwise_sortByCmp entryCompare _
        (fun a ha b hb => entryCompare_total_cases a b
          (comparable_of_no_other a b (hno' a ha) (hno' b hb)))
        (fun a ha b hb d hd h1 h2 => entryCompare_trans_cases a b d
          (comparable_of_no_other a b (hno' a ha) (hno' b hb))
          (comparable_of_no_other b d (hno' b hb) (hno' d hd)) h1 h2))
  · intro hno
    have hno' : ∀ e ∈ (rows.filter
        (fun e => e.filename != "." && e.filename != "..")).map entryOfRaw,
        e.kind ≠ .file :=
      fun e he => hno e ((mem_sortByCmp entryCompare e _).mpr he)
    exact List.Pairwise.imp
      (fun h => specOrder_of_entryCompare_le _ _ h)
      (pairwise_sortByCmp entryCompare _
        (fun a ha b hb => entryCompare_total_cases a b
          (comparable_of_no_file a b (hno' a ha) (hno' b hb)))
        (fun a ha b hb d hd h1 h2 => entryCompare_trans_cases a b d
          (comparable_of_no_file a b (hno' a ha) (hno' b hb))
          (comparable_of_no_file b d (hno' b hb) (hno' d hd)) h1 h2))

/-- C3 witness: a listing with a directory and a file comes back dirs-first
and fully ordered as claimed (no `other` entry present). -/
theorem listRemote_sorted_c3_witness :
    List.Pairwise dirsFirstRel
      [{ name := "b", kind := .dir }, { name := "a", kind := .file }] ∧
    specSorted [{ name := "b", kind := .dir }, { name := "a", kind := .file }] := by
  have h := listRemote_sorted_c3 { client := some 0, sftp := some 0 }
    (some [{ filename := "b", isDirectory := true, isFile := false },
           { filename := "a", isDirectory := false, isFile := true }])
    [{ name := "b", kind := .dir }, { name := "a", kind := .file }] rfl
  exact ⟨h.1, h.2.1 (by decide)⟩

end Cftp
